import Mathlib

/-!
Verification of the core of `src/code.py` (a pandas demo script): the
categorization routine `add_category_column` and the missing-value-aware
filter `filter_by_min_value`.

The embedding models a pandas `DataFrame` as an ordered list of column
names together with row-major cell data.  A cell is a present rational
number, a string, or an absent value (`NaN` / `None`).  Rational numbers
stand for the real values of the source; every operation of the source
is translated statement by statement.

`pd.cut(x, bins=[-10000, 30, 60, 1e9], labels=["low", "medium", "high"],
include_lowest=True)` uses the pandas default `right=True`, so the three
intervals are `[-10000, 30]`, `(30, 60]` and `(60, 1e9]`; a value outside
`[-10000, 1e9]` is mapped to `NaN` (no label).
-/

set_option autoImplicit false

namespace PandasDemo

/-- A cell of a DataFrame column: a present rational number, a string, or
an absent value (`NaN` / `None`). -/
inductive Cell where
  | num (v : ℚ)
  | str (s : String)
  | absent
deriving DecidableEq

deriving instance DecidableEq for Except

/-- Whether a cell holds a string. -/
def Cell.isStr : Cell → Bool
  | Cell.str _ => true
  | _ => false

/-- A DataFrame: an ordered list of column names and row-major cell data.
Row order and column order are significant. -/
structure Table where
  cols : List String
  rows : List (List Cell)
deriving DecidableEq

/-- Well-formedness: every row has exactly one cell per column. -/
def Table.wf (t : Table) : Bool :=
  t.rows.all (fun r => r.length == t.cols.length)

/-- Index of the first column with the given name, if any. -/
def colIdx (c : String) : List String → Option Nat
  | [] => none
  | n :: ns => if n = c then some 0 else (colIdx c ns).map (· + 1)

/-- Read a whole column (`df[c]`); `none` models the `KeyError` raised by
pandas when the column does not exist. -/
def Table.getCol (t : Table) (c : String) : Option (List Cell) :=
  (colIdx c t.cols).map (fun j => t.rows.map (fun r => r.getD j Cell.absent))

/-- Column assignment (`df[c] = vals`): replaces the column when the name
exists, otherwise appends a new column on the right, as pandas does. -/
def Table.setCol (t : Table) (c : String) (vals : List Cell) : Table :=
  match colIdx c t.cols with
  | some j => ⟨t.cols, List.zipWith (fun r v => r.set j v) t.rows vals⟩
  | none => ⟨t.cols ++ [c], List.zipWith (fun r v => r ++ [v]) t.rows vals⟩

/-- Column removal (`df.drop(columns=c)`). -/
def Table.dropCol (t : Table) (c : String) : Table :=
  match colIdx c t.cols with
  | some j => ⟨t.cols.eraseIdx j, t.rows.map (fun r => r.eraseIdx j)⟩
  | none => t

/-- The sentinel substituted for absent entries by `add_category_column`
(`fillna(-9999)` in `src/code.py` line 76). -/
def sentinel : ℚ := -9999

/-- The bin boundaries of `src/code.py` line 79: `[-10000, 30, 60, 1e9]`. -/
def bins : List ℚ := [-10000, 30, 60, 1000000000]

/-- One cell of `fillna(-9999)`: absent becomes the sentinel, present
values pass through. -/
def fillCell (c : Cell) : Cell :=
  match c with
  | Cell.absent => Cell.num (-9999)
  | c => c

/-- One value of `pd.cut(_, bins=[-10000, 30, 60, 1e9],
labels=["low", "medium", "high"], include_lowest=True)`: right-closed
intervals `[-10000, 30]`, `(30, 60]`, `(60, 1e9]` (pandas default
`right=True`; `include_lowest` closes the very first left edge); values
outside every bin get `NaN`, modelled as `Cell.absent`. -/
def cutQ (v : ℚ) : Cell :=
  if v < -10000 then Cell.absent
  else if v ≤ 30 then Cell.str "low"
  else if v ≤ 60 then Cell.str "medium"
  else if v ≤ 1000000000 then Cell.str "high"
  else Cell.absent

/-- `pd.cut` on one cell: numbers are binned, absent stays absent, and a
string raises (`TypeError`), modelled as `Except.error`. -/
def cutCell (c : Cell) : Except String Cell :=
  match c with
  | Cell.num v => Except.ok (cutQ v)
  | Cell.absent => Except.ok Cell.absent
  | Cell.str _ => Except.error "TypeError"

/-- `pd.cut` on a whole column; the first `TypeError` propagates. -/
def cutCells : List Cell → Except String (List Cell)
  | [] => Except.ok []
  | c :: cs =>
    match cutCell c with
    | Except.error e => Except.error e
    | Except.ok x =>
      match cutCells cs with
      | Except.error e => Except.error e
      | Except.ok xs => Except.ok (x :: xs)

/-- Embedding of `add_category_column(df, col)` (`src/code.py` lines
69-85), translated statement by statement:
`out = df.copy()`;
`out["_val_filled"] = out[col].fillna(-9999)`;
`out["category"] = pd.cut(out["_val_filled"], bins=[-10000, 30, 60, 1e9],
labels=["low", "medium", "high"], include_lowest=True)`;
`out.loc[out["_val_filled"] == -9999, "category"] = "missing"`;
`out.drop(columns="_val_filled", inplace=True)`.
A missing column raises `KeyError`; non-numeric data under `pd.cut`
raises `TypeError`; both are modelled as `Except.error`. -/
def add_category_column (df : Table) (col : String) : Except String Table :=
  let out := df
  match out.getCol col with
  | none => Except.error "KeyError"
  | some cells =>
    let filled := cells.map fillCell
    let out := out.setCol "_val_filled" filled
    match cutCells filled with
    | Except.error e => Except.error e
    | Except.ok cats =>
      let out := out.setCol "category" cats
      let filled2 := (out.getCol "_val_filled").getD []
      let cats2 := List.zipWith
        (fun f c => if f = Cell.num (-9999) then Cell.str "missing" else c)
        filled2 cats
      let out := out.setCol "category" cats2
      let out := out.dropCol "_val_filled"
      Except.ok out

/-- One cell of the mask comparison `df["value"] >= min_value`: a present
number compares numerically, absent (`NaN`) compares `False`, a string
raises `TypeError`. -/
def geCell (c : Cell) (min_value : ℚ) : Except String Bool :=
  match c with
  | Cell.num v => Except.ok (decide (min_value ≤ v))
  | Cell.absent => Except.ok false
  | Cell.str _ => Except.error "TypeError"

/-- The mask comparison on a whole column; the first `TypeError`
propagates. -/
def geCells : List Cell → ℚ → Except String (List Bool)
  | [], _ => Except.ok []
  | c :: cs, m =>
    match geCell c m with
    | Except.error e => Except.error e
    | Except.ok b =>
      match geCells cs m with
      | Except.error e => Except.error e
      | Except.ok bs => Except.ok (b :: bs)

/-- Embedding of `filter_by_min_value(df, min_value)` (`src/code.py`
lines 88-90): `return df[df["value"] >= min_value].copy()`.  Rows are
kept exactly where the mask is true; absent values yield `False` in the
mask and are dropped without error. -/
def filter_by_min_value (df : Table) (min_value : ℚ) : Except String Table :=
  match df.getCol "value" with
  | none => Except.error "KeyError"
  | some cells =>
    match geCells cells min_value with
    | Except.error e => Except.error e
    | Except.ok keeps =>
      Except.ok ⟨df.cols,
        (df.rows.zip keeps).filterMap (fun p => if p.2 then some p.1 else none)⟩

/-- The successful branch of `cutCell` as a total function: numbers are
binned, anything else (never reached on numeric-or-absent data after the
sentinel fill) stays absent. -/
def cutTotal (c : Cell) : Cell :=
  match c with
  | Cell.num v => cutQ v
  | _ => Cell.absent

/-- The per-cell composition of fill, cut and the `missing` override:
the final category cell a row receives for a given source cell. -/
def catOf (c : Cell) : Cell :=
  if fillCell c = Cell.num (-9999) then Cell.str "missing"
  else cutTotal (fillCell c)

/-- One cell of the filter predicate: keep a row iff its value is
present and at least the threshold. -/
def keepCell (c : Cell) (m : ℚ) : Bool :=
  match c with
  | Cell.num v => decide (m ≤ v)
  | _ => false

/-! ### Reference-level embedding (aliasing and in-place mutation)

Python variables hold references to DataFrame objects.  To state the
non-mutation guarantee we model a heap of DataFrame objects addressed by
index: `df.copy()` allocates a fresh object, and the in-place pandas
operations of the source (`out[...] = ...`, `out.loc[...] = ...`,
`out.drop(..., inplace=True)`) overwrite the object at exactly one
reference. -/

/-- The empty table, the default when reading the heap out of range. -/
def emptyTable : Table := ⟨[], []⟩

/-- Embedding of `add_category_column` at the reference level.  The
caller's table lives at `dfRef`; `out = df.copy()` allocates a fresh
object at the end of the heap, and every subsequent in-place update
overwrites the object at that fresh reference only.  Returns the final
heap together with the reference of the returned table (or the raised
error). -/
def add_category_column_prog (h : List Table) (dfRef : Nat) (col : String) :
    List Table × Except String Nat :=
  let df := h.getD dfRef emptyTable
  let outRef := h.length
  let h1 := h ++ [df]
  let out0 := h1.getD outRef emptyTable
  match out0.getCol col with
  | none => (h1, Except.error "KeyError")
  | some cells =>
    let filled := cells.map fillCell
    let h2 := h1.set outRef ((h1.getD outRef emptyTable).setCol "_val_filled" filled)
    match cutCells filled with
    | Except.error e => (h2, Except.error e)
    | Except.ok cats =>
      let h3 := h2.set outRef ((h2.getD outRef emptyTable).setCol "category" cats)
      let filled2 := ((h3.getD outRef emptyTable).getCol "_val_filled").getD []
      let cats2 := List.zipWith
        (fun f c => if f = Cell.num (-9999) then Cell.str "missing" else c)
        filled2 cats
      let h4 := h3.set outRef ((h3.getD outRef emptyTable).setCol "category" cats2)
      let h5 := h4.set outRef ((h4.getD outRef emptyTable).dropCol "_val_filled")
      (h5, Except.ok outRef)

/-- Embedding of `filter_by_min_value` at the reference level: the input
object is only read; `.copy()` allocates the result as a fresh object. -/
def filter_by_min_value_prog (h : List Table) (dfRef : Nat) (min_value : ℚ) :
    List Table × Except String Nat :=
  let df := h.getD dfRef emptyTable
  match df.getCol "value" with
  | none => (h, Except.error "KeyError")
  | some cells =>
    match geCells cells min_value with
    | Except.error e => (h, Except.error e)
    | Except.ok keeps =>
      let result : Table := ⟨df.cols,
        (df.rows.zip keeps).filterMap (fun p => if p.2 then some p.1 else none)⟩
      (h ++ [result], Except.ok h.length)

/-- Number of absent cells in a column. -/
def countAbsent (l : List Cell) : Nat := l.countP (fun c => c == Cell.absent)

/-- Number of cells labeled `missing` in a column. -/
def countMissing (l : List Cell) : Nat := l.countP (fun c => c == Cell.str "missing")

/-- Number of present cells numerically equal to the sentinel -9999. -/
def countSentinel (l : List Cell) : Nat := l.countP (fun c => c == Cell.num (-9999))

/-! ### Helper lemmas on column indices and list plumbing -/

lemma colIdx_nil (c : String) : colIdx c [] = none := rfl

lemma colIdx_cons (c n : String) (ns : List String) :
    colIdx c (n :: ns) = if n = c then some 0 else (colIdx c ns).map (· + 1) := rfl

lemma colIdx_eq_none {c : String} : ∀ {l : List String}, c ∉ l → colIdx c l = none := by
  intro l
  induction l with
  | nil => intro _; rfl
  | cons a l ih =>
    intro h
    simp only [List.mem_cons, not_or] at h
    have hne : ¬ a = c := fun e => h.1 e.symm
    rw [colIdx_cons, if_neg hne, ih h.2, Option.map_none']

lemma colIdx_append_of_not_mem {c : String} {l : List String} (l₂ : List String)
    (h : c ∉ l) : colIdx c (l ++ l₂) = (colIdx c l₂).map (· + l.length) := by
  induction l with
  | nil =>
    simp only [List.nil_append, List.length_nil]
    rcases colIdx c l₂ with _ | k <;> rfl
  | cons a l ih =>
    simp only [List.mem_cons, not_or] at h
    have hne : ¬ a = c := fun e => h.1 e.symm
    rw [List.cons_append, colIdx_cons, if_neg hne, ih h.2]
    rcases colIdx c l₂ with _ | k
    · rfl
    · simp only [Option.map_some', List.length_cons, Option.some.injEq]
      omega

lemma colIdx_append_self {c : String} {l : List String} (h : c ∉ l) :
    colIdx c (l ++ [c]) = some l.length := by
  rw [colIdx_append_of_not_mem _ h]
  simp [colIdx]

lemma getD_append_self {α : Type _} (d : α) :
    ∀ (l rest : List α), (l ++ rest).getD l.length d = rest.getD 0 d := by
  intro l
  induction l with
  | nil => intro rest; rfl
  | cons a l ih => intro rest; simpa using ih rest

lemma set_append_succ {α : Type _} :
    ∀ (l : List α) (a b c : α), (l ++ [a, b]).set (l.length + 1) c = l ++ [a, c] := by
  intro l
  induction l with
  | nil => intro a b c; rfl
  | cons x l ih =>
    intro a b c
    show x :: (l ++ [a, b]).set (l.length + 1) c = x :: (l ++ [a, c])
    rw [ih]

lemma eraseIdx_append_len {α : Type _} :
    ∀ (l : List α) (x : α) (rest : List α), (l ++ x :: rest).eraseIdx l.length = l ++ rest := by
  intro l
  induction l with
  | nil => intro x rest; rfl
  | cons y l ih =>
    intro x rest
    show y :: (l ++ x :: rest).eraseIdx l.length = y :: (l ++ rest)
    rw [ih]

lemma zipWith_self_map {α β γ : Type _} (h : α → β → γ) (g : α → β) :
    ∀ (l : List α), List.zipWith h l (l.map g) = l.map (fun x => h x (g x)) := by
  intro l
  induction l with
  | nil => rfl
  | cons a l ih => simp [ih]

lemma zipWith_map_map {α β γ δ : Type _} (h : β → γ → δ) (f : α → β) (g : α → γ) :
    ∀ (l : List α), List.zipWith h (l.map f) (l.map g) = l.map (fun x => h (f x) (g x)) := by
  intro l
  induction l with
  | nil => rfl
  | cons a l ih => simp [ih]

lemma map_congr_mem {α β : Type _} {f g : α → β} :
    ∀ {l : List α}, (∀ x ∈ l, f x = g x) → l.map f = l.map g := by
  intro l
  induction l with
  | nil => intro _; rfl
  | cons a l ih =>
    intro h
    simp only [List.map_cons, h a (List.mem_cons_self a l),
      ih (fun x hx => h x (List.mem_cons_of_mem a hx))]

lemma fillCell_isStr {c : Cell} (h : c.isStr = false) : (fillCell c).isStr = false := by
  cases c <;> simp_all [fillCell, Cell.isStr]

lemma cutCells_ok : ∀ {l : List Cell}, (∀ c ∈ l, c.isStr = false) →
    cutCells l = Except.ok (l.map cutTotal) := by
  intro l
  induction l with
  | nil => intro _; rfl
  | cons c cs ih =>
    intro h
    have h1 : c.isStr = false := h c (List.mem_cons_self c cs)
    have h2 := ih (fun x hx => h x (List.mem_cons_of_mem c hx))
    cases c with
    | num v => simp [cutCells, cutCell, h2, cutTotal]
    | str s => simp [Cell.isStr] at h1
    | absent => simp [cutCells, cutCell, h2, cutTotal]

lemma geCells_ok {m : ℚ} : ∀ {l : List Cell}, (∀ c ∈ l, c.isStr = false) →
    geCells l m = Except.ok (l.map (fun c => keepCell c m)) := by
  intro l
  induction l with
  | nil => intro _; rfl
  | cons c cs ih =>
    intro h
    have h1 : c.isStr = false := h c (List.mem_cons_self c cs)
    have h2 := ih (fun x hx => h x (List.mem_cons_of_mem c hx))
    cases c with
    | num v => simp [geCells, geCell, h2, keepCell]
    | str s => simp [Cell.isStr] at h1
    | absent => simp [geCells, geCell, h2, keepCell]

lemma zip_filterMap_eq_filter {α : Type _} (f : α → Bool) :
    ∀ (l : List α),
      (l.zip (l.map f)).filterMap (fun p => if p.2 then some p.1 else none) = l.filter f := by
  intro l
  induction l with
  | nil => rfl
  | cons a l ih =>
    simp only [List.map_cons, List.zip_cons_cons, List.filterMap_cons]
    cases hfa : f a <;> simp [List.filter_cons, hfa, ih]

lemma wf_rows {t : Table} (hwf : t.wf = true) :
    ∀ r ∈ t.rows, r.length = t.cols.length := by
  intro r hr
  simp only [Table.wf, List.all_eq_true, beq_iff_eq] at hwf
  exact hwf r hr

lemma getCol_found (cols' : List String) (R : List (List Cell)) (c : String) (j' : Nat)
    (hj' : colIdx c cols' = some j') :
    Table.getCol ⟨cols', R⟩ c = some (R.map (fun r => r.getD j' Cell.absent)) := by
  simp [Table.getCol, hj']

lemma setCol_fresh₀ (cols' : List String) (R : List (List Cell)) (c : String)
    (g : List Cell → Cell) (h : c ∉ cols') :
    Table.setCol ⟨cols', R⟩ c (R.map g) = ⟨cols' ++ [c], R.map (fun r => r ++ [g r])⟩ := by
  simp [Table.setCol, colIdx_eq_none h, zipWith_self_map]

lemma setCol_fresh (cols' : List String) (R : List (List Cell)) (c : String)
    (f : List Cell → List Cell) (g : List Cell → Cell) (h : c ∉ cols') :
    Table.setCol ⟨cols', R.map f⟩ c (R.map g) =
      ⟨cols' ++ [c], R.map (fun r => f r ++ [g r])⟩ := by
  simp [Table.setCol, colIdx_eq_none h, zipWith_map_map]

lemma setCol_found (cols' : List String) (R : List (List Cell)) (c : String) (j' : Nat)
    (f : List Cell → List Cell) (g : List Cell → Cell) (hj' : colIdx c cols' = some j') :
    Table.setCol ⟨cols', R.map f⟩ c (R.map g) =
      ⟨cols', R.map (fun r => (f r).set j' (g r))⟩ := by
  simp [Table.setCol, hj', zipWith_map_map]

lemma dropCol_found (cols' : List String) (R : List (List Cell)) (c : String) (j' : Nat)
    (f : List Cell → List Cell) (hj' : colIdx c cols' = some j') :
    Table.dropCol ⟨cols', R.map f⟩ c =
      ⟨cols'.eraseIdx j', R.map (fun r => (f r).eraseIdx j')⟩ := by
  simp [Table.dropCol, hj', List.map_map]

/-- Closed form of `add_category_column` on a well-formed table whose
source column exists, whose working and output column names are fresh,
and whose source column is numeric-or-absent: the output keeps all
original columns, appends one `category` column, and labels each row by
`catOf` of its source cell. -/
theorem add_category_column_spec (t : Table) (col : String) (j : Nat)
    (hwf : t.wf = true) (hj : colIdx col t.cols = some j)
    (hv : "_val_filled" ∉ t.cols) (hc : "category" ∉ t.cols)
    (hnum : ∀ r ∈ t.rows, (r.getD j Cell.absent).isStr = false) :
    add_category_column t col =
      Except.ok ⟨t.cols ++ ["category"],
        t.rows.map (fun r => r ++ [catOf (r.getD j Cell.absent)])⟩ := by
  obtain ⟨C, R⟩ := t
  dsimp only at hj hv hc hnum
  have hwf' : ∀ r ∈ R, r.length = C.length := wf_rows hwf
  have hVC : "category" ∉ C ++ ["_val_filled"] := by simp [hc]
  have hVidx : colIdx "_val_filled" ((C ++ ["_val_filled"]) ++ ["category"]) =
      some C.length := by
    rw [List.append_assoc, colIdx_append_of_not_mem _ hv]
    simp [colIdx_cons]
  have hCidx : colIdx "category" ((C ++ ["_val_filled"]) ++ ["category"]) =
      some (C.length + 1) := by
    rw [colIdx_append_self hVC]
    simp
  have hstr : ∀ c ∈ R.map (fillCell ∘ fun r => r.getD j Cell.absent),
      c.isStr = false := by
    intro c hcm
    simp only [List.mem_map, Function.comp] at hcm
    obtain ⟨r, hr, rfl⟩ := hcm
    exact fillCell_isStr (hnum r hr)
  simp only [add_category_column]
  rw [getCol_found C R col j hj]
  dsimp only
  rw [List.map_map, cutCells_ok hstr]
  dsimp only
  rw [List.map_map]
  set G := fillCell ∘ fun r : List Cell => r.getD j Cell.absent with hGdef
  set K := cutTotal ∘ G with hKdef
  rw [setCol_fresh₀ C R "_val_filled" G hv]
  rw [setCol_fresh (C ++ ["_val_filled"]) R "category" _ K hVC]
  rw [getCol_found _ _ "_val_filled" C.length hVidx]
  simp only [Option.getD_some, List.map_map]
  have h6 : ∀ r ∈ R,
      ((fun r => r.getD C.length Cell.absent) ∘ fun r => r ++ [G r] ++ [K r]) r = G r := by
    intro r hr
    simp only [Function.comp_apply]
    rw [List.append_assoc, ← hwf' r hr, getD_append_self]
    rfl
  rw [map_congr_mem h6, zipWith_map_map]
  rw [setCol_found _ R "category" (C.length + 1) _ _ hCidx]
  rw [dropCol_found _ R "_val_filled" C.length _ hVidx]
  have hcols : ((C ++ ["_val_filled"]) ++ ["category"]).eraseIdx C.length =
      C ++ ["category"] := by
    rw [List.append_assoc]
    exact eraseIdx_append_len C "_val_filled" ["category"]
  rw [hcols]
  have h9 : ∀ r ∈ R,
      (((fun r => r ++ [G r] ++ [K r]) r).set (C.length + 1)
          (if G r = Cell.num (-9999) then Cell.str "missing" else K r)).eraseIdx C.length =
        r ++ [if G r = Cell.num (-9999) then Cell.str "missing" else K r] := by
    intro r hr
    simp only
    rw [List.append_assoc, List.singleton_append, ← hwf' r hr, set_append_succ]
    exact eraseIdx_append_len r (G r) _
  rw [map_congr_mem h9, hGdef, hKdef]
  simp only [catOf, Function.comp_apply]
  rfl

/-- Closed form of `filter_by_min_value` on a table whose `value` column
exists at index `j` and is numeric-or-absent: the output keeps the
columns and filters the rows by `keepCell`. -/
theorem filter_by_min_value_spec (t : Table) (m : ℚ) (j : Nat)
    (hj : colIdx "value" t.cols = some j)
    (hnum : ∀ r ∈ t.rows, (r.getD j Cell.absent).isStr = false) :
    filter_by_min_value t m =
      Except.ok ⟨t.cols, t.rows.filter (fun r => keepCell (r.getD j Cell.absent) m)⟩ := by
  obtain ⟨C, R⟩ := t
  dsimp only at hj hnum
  have hstr : ∀ c ∈ R.map (fun r => r.getD j Cell.absent), c.isStr = false := by
    intro c hcm
    simp only [List.mem_map] at hcm
    obtain ⟨r, hr, rfl⟩ := hcm
    exact hnum r hr
  simp only [filter_by_min_value]
  rw [getCol_found C R "value" j hj]
  dsimp only
  rw [geCells_ok hstr]
  dsimp only
  rw [List.map_map, zip_filterMap_eq_filter]
  rfl

lemma getD_append_last {α : Type _} (d : α) (l : List α) (x : α) :
    (l ++ [x]).getD l.length d = x := by
  rw [getD_append_self]
  rfl

lemma set_append_last {α : Type _} : ∀ (l : List α) (x y : α),
    (l ++ [x]).set l.length y = l ++ [y] := by
  intro l
  induction l with
  | nil => intro x y; rfl
  | cons a l ih =>
    intro x y
    show a :: (l ++ [x]).set l.length y = a :: (l ++ [y])
    rw [ih]

lemma getD_append_lt {α : Type _} (d : α) :
    ∀ (l l₂ : List α) (n : Nat), n < l.length → (l ++ l₂).getD n d = l.getD n d := by
  intro l
  induction l with
  | nil => intro l₂ n hn; exact absurd hn (by simp)
  | cons a l ih =>
    intro l₂ n hn
    cases n with
    | zero => rfl
    | succ n => exact ih l₂ n (Nat.lt_of_succ_lt_succ hn)

lemma add_prog_heap (h : List Table) (dfRef : Nat) (col : String) :
    ∃ x, (add_category_column_prog h dfRef col).1 = h ++ [x] := by
  simp only [add_category_column_prog, getD_append_last, set_append_last]
  split
  · exact ⟨_, rfl⟩
  · split
    · exact ⟨_, rfl⟩
    · exact ⟨_, rfl⟩

lemma add_prog_ref (h : List Table) (dfRef : Nat) (col : String) (r0 : Nat)
    (hr : (add_category_column_prog h dfRef col).2 = Except.ok r0) : r0 = h.length := by
  simp only [add_category_column_prog, getD_append_last, set_append_last] at hr
  revert hr
  split
  · intro hr; cases hr
  · split
    · intro hr; cases hr
    · intro hr; exact (Except.ok.inj hr).symm

lemma filter_prog_heap (h : List Table) (dfRef : Nat) (m : ℚ) :
    (filter_by_min_value_prog h dfRef m).1 = h ∨
      ∃ x, (filter_by_min_value_prog h dfRef m).1 = h ++ [x] := by
  simp only [filter_by_min_value_prog]
  split
  · exact Or.inl rfl
  · split
    · exact Or.inl rfl
    · exact Or.inr ⟨_, rfl⟩

lemma filter_prog_ref (h : List Table) (dfRef : Nat) (m : ℚ) (r0 : Nat)
    (hr : (filter_by_min_value_prog h dfRef m).2 = Except.ok r0) : r0 = h.length := by
  simp only [filter_by_min_value_prog] at hr
  revert hr
  split
  · intro hr; cases hr
  · split
    · intro hr; cases hr
    · intro hr; exact (Except.ok.inj hr).symm

lemma cutQ_ne_missing (v : ℚ) : (cutQ v == Cell.str "missing") = false := by
  simp only [cutQ]
  split_ifs <;> decide

lemma catOf_num_ne_sentinel {v : ℚ} (h9 : ¬ v = -9999) :
    catOf (Cell.num v) = cutQ v := by
  simp only [catOf, fillCell]
  rw [if_neg]
  · rfl
  · simp [h9]

lemma countP_catOf : ∀ {l : List Cell}, (∀ c ∈ l, c.isStr = false) →
    (l.map catOf).countP (fun c => c == Cell.str "missing") =
      l.countP (fun c => c == Cell.absent) + l.countP (fun c => c == Cell.num (-9999)) := by
  intro l
  induction l with
  | nil => intro _; rfl
  | cons c cs ih =>
    intro h
    have h1 : c.isStr = false := h c (List.mem_cons_self c cs)
    have h2 := ih (fun x hx => h x (List.mem_cons_of_mem c hx))
    simp only [List.map_cons, List.countP_cons, h2]
    cases c with
    | num v =>
      by_cases h9 : v = -9999
      · subst h9
        have eA : (Cell.num (-9999) == Cell.absent) = false := by decide
        have eS : (Cell.num (-9999) == Cell.num (-9999)) = true := by decide
        have eM : (catOf (Cell.num (-9999)) == Cell.str "missing") = true := by decide
        simp only [eA, eS, eM]
        simp
        omega
      · have eA : (Cell.num v == Cell.absent) = false := by rfl
        have eS : (Cell.num v == Cell.num (-9999)) = false :=
          beq_eq_false_iff_ne.mpr (by simp [h9])
        have eM : (catOf (Cell.num v) == Cell.str "missing") = false := by
          rw [catOf_num_ne_sentinel h9]
          exact cutQ_ne_missing v
        simp only [eA, eS, eM]
        simp
    | str s => simp [Cell.isStr] at h1
    | absent =>
      have eA : (Cell.absent == Cell.absent) = true := by decide
      have eS : (Cell.absent == Cell.num (-9999)) = false := by decide
      have eM : (catOf Cell.absent == Cell.str "missing") = true := by decide
      simp only [eA, eS, eM]
      simp
      omega

lemma getCol_category_of_spec (t : Table) (j : Nat) (hwf : t.wf = true)
    (hc : "category" ∉ t.cols) :
    Table.getCol
        ⟨t.cols ++ ["category"],
          t.rows.map (fun r => r ++ [catOf (r.getD j Cell.absent)])⟩ "category"
      = some (t.rows.map (fun r => catOf (r.getD j Cell.absent))) := by
  rw [getCol_found _ _ "category" t.cols.length (colIdx_append_self hc)]
  congr 1
  rw [List.map_map]
  refine map_congr_mem (fun r hr => ?_)
  simp only [Function.comp_apply]
  rw [← wf_rows hwf r hr, getD_append_last]

/-! ### Claims -/

/-- Claim C1 counterexample: under the default boundaries a present
value exactly equal to the interior boundary 30 is labeled `low` (not
`medium`), and 60 is labeled `medium` (not `high`): `pd.cut` is
right-closed, so a boundary value belongs to the interval below it. -/
theorem c1_counterexample :
    add_category_column ⟨["value"], [[Cell.num 30]]⟩ "value"
        = Except.ok ⟨["value", "category"], [[Cell.num 30, Cell.str "low"]]⟩ ∧
      add_category_column ⟨["value"], [[Cell.num 30]]⟩ "value"
        ≠ Except.ok ⟨["value", "category"], [[Cell.num 30, Cell.str "medium"]]⟩ ∧
      add_category_column ⟨["value"], [[Cell.num 60]]⟩ "value"
        = Except.ok ⟨["value", "category"], [[Cell.num 60, Cell.str "medium"]]⟩ ∧
      add_category_column ⟨["value"], [[Cell.num 60]]⟩ "value"
        ≠ Except.ok ⟨["value", "category"], [[Cell.num 60, Cell.str "high"]]⟩ := by
  decide

/-- Claim C1 (amended): a present value exactly equal to an interior bin
boundary (30 or 60) is assigned the label of the interval for which that
value is the upper edge (30 → `low`, 60 → `medium`), never the interval
above it. -/
theorem c1_boundary_value_upper_interval (t : Table) (col : String) (j i : Nat)
    (r : List Cell) (v : ℚ)
    (hwf : t.wf = true) (hj : colIdx col t.cols = some j)
    (hv : "_val_filled" ∉ t.cols) (hc : "category" ∉ t.cols)
    (hnum : ∀ r ∈ t.rows, (r.getD j Cell.absent).isStr = false)
    (hir : t.rows[i]? = some r)
    (hb : v = 30 ∨ v = 60)
    (hcell : r.getD j Cell.absent = Cell.num v) :
    ∃ t', add_category_column t col = Except.ok t' ∧
      t'.rows[i]? = some (r ++ [Cell.str (if v = 30 then "low" else "medium")]) := by
  refine ⟨_, add_category_column_spec t col j hwf hj hv hc hnum, ?_⟩
  rcases hb with rfl | rfl
  · have h30 : catOf (Cell.num 30) = Cell.str "low" := by decide
    simp only [List.getElem?_map, hir, Option.map_some', hcell, h30]
    norm_num
  · have h60 : catOf (Cell.num 60) = Cell.str "medium" := by decide
    simp only [List.getElem?_map, hir, Option.map_some', hcell, h60]
    norm_num

/-- Claim C1 witness: the amended claim at the one-row table with value
30. -/
theorem c1_witness :
    ∃ t', add_category_column ⟨["value"], [[Cell.num 30]]⟩ "value" = Except.ok t' ∧
      t'.rows[0]? =
        some ([Cell.num 30] ++ [Cell.str (if (30 : ℚ) = 30 then "low" else "medium")]) :=
  c1_boundary_value_upper_interval ⟨["value"], [[Cell.num 30]]⟩ "value" 0 0
    [Cell.num 30] 30 (by decide) (by decide) (by decide) (by decide) (by decide)
    (by decide) (Or.inl rfl) (by decide)

/-- Claim C2 counterexample: a present real value outside the overall
bin range (here 2000000000 > 1e9) receives no label at all — its
category cell is absent, which is none of the four labels. -/
theorem c2_counterexample :
    add_category_column ⟨["value"], [[Cell.num 2000000000]]⟩ "value"
        = Except.ok ⟨["value", "category"], [[Cell.num 2000000000, Cell.absent]]⟩ ∧
      Cell.absent ≠ Cell.str "low" ∧ Cell.absent ≠ Cell.str "medium" ∧
      Cell.absent ≠ Cell.str "high" ∧ Cell.absent ≠ Cell.str "missing" := by
  decide

/-- Claim C2 (amended): for a well-formed table whose source column is
numeric-or-absent and whose present values all lie within the overall
bin range [-10000, 1e9], `add_category_column` succeeds, appends exactly
one category cell per row, and that cell is one of the four labels
`low`, `medium`, `high`, `missing` for every row.  (As stated the claim
is false: a present value outside [-10000, 1e9] is left unlabeled.) -/
theorem c2_every_row_labeled (t : Table) (col : String) (j : Nat)
    (hwf : t.wf = true) (hj : colIdx col t.cols = some j)
    (hv : "_val_filled" ∉ t.cols) (hc : "category" ∉ t.cols)
    (hnum : ∀ r ∈ t.rows, (r.getD j Cell.absent).isStr = false)
    (hrange : ∀ r ∈ t.rows, ∀ v : ℚ, r.getD j Cell.absent = Cell.num v →
      -10000 ≤ v ∧ v ≤ 1000000000) :
    ∃ t', add_category_column t col = Except.ok t' ∧
      t'.rows = t.rows.map (fun r => r ++ [catOf (r.getD j Cell.absent)]) ∧
      ∀ r ∈ t.rows, catOf (r.getD j Cell.absent) ∈
        [Cell.str "low", Cell.str "medium", Cell.str "high", Cell.str "missing"] := by
  refine ⟨_, add_category_column_spec t col j hwf hj hv hc hnum, rfl, ?_⟩
  intro r hr
  rcases hcell : r.getD j Cell.absent with v | s | _
  · rcases hrange r hr v hcell with ⟨hlo, hhi⟩
    by_cases h9 : v = -9999
    · subst h9
      have e1 : catOf (Cell.num (-9999)) = Cell.str "missing" := by decide
      simp [e1]
    · rw [catOf_num_ne_sentinel h9]
      simp only [cutQ]
      split_ifs with ha hb1 hb2
      · exact absurd ha (not_lt.mpr hlo)
      · simp
      · simp
      · simp
  · have := hnum r hr
    rw [hcell] at this
    simp [Cell.isStr] at this
  · have e1 : catOf Cell.absent = Cell.str "missing" := by decide
    simp [e1]

/-- Claim C2 witness: the amended claim at a two-row table with one
in-range value and one absent value. -/
theorem c2_witness :
    ∃ t', add_category_column ⟨["value"], [[Cell.num 45], [Cell.absent]]⟩ "value"
        = Except.ok t' ∧
      t'.rows = ([[Cell.num 45], [Cell.absent]] : List (List Cell)).map
        (fun r => r ++ [catOf (r.getD 0 Cell.absent)]) ∧
      ∀ r ∈ ([[Cell.num 45], [Cell.absent]] : List (List Cell)),
        catOf (r.getD 0 Cell.absent) ∈
          [Cell.str "low", Cell.str "medium", Cell.str "high", Cell.str "missing"] :=
  c2_every_row_labeled ⟨["value"], [[Cell.num 45], [Cell.absent]]⟩ "value" 0
    (by decide) (by decide) (by decide) (by decide) (by decide)
    (by
      intro r hr v hv
      simp only [List.mem_cons, List.not_mem_nil, or_false] at hr
      rcases hr with rfl | rfl
      · have e : Cell.num 45 = Cell.num v := hv
        cases e
        norm_num
      · exact absurd hv (by simp))

/-- Claim C3: a row survives `filter_by_min_value` iff its `value` entry
is present and at least the threshold; absent values are dropped without
error, all columns are kept, and the surviving rows form a sublist of
the original rows (original relative order, no duplication). -/
theorem c3_filter_iff (t : Table) (m : ℚ) (j : Nat)
    (hj : colIdx "value" t.cols = some j)
    (hnum : ∀ r ∈ t.rows, (r.getD j Cell.absent).isStr = false) :
    ∃ t', filter_by_min_value t m = Except.ok t' ∧
      t'.cols = t.cols ∧
      t'.rows = t.rows.filter (fun r => keepCell (r.getD j Cell.absent) m) ∧
      t'.rows.Sublist t.rows ∧
      ∀ r ∈ t.rows, (r ∈ t'.rows ↔ keepCell (r.getD j Cell.absent) m = true) := by
  refine ⟨_, filter_by_min_value_spec t m j hj hnum, rfl, rfl, List.filter_sublist _, ?_⟩
  intro r hr
  constructor
  · intro hmem
    exact (List.mem_filter.mp hmem).2
  · intro hk
    exact List.mem_filter.mpr ⟨hr, hk⟩

/-- Claim C3 witness: the filter at threshold 50 on the spec's example
column `[10, absent, 50, 55]`. -/
theorem c3_witness :
    ∃ t', filter_by_min_value
          ⟨["value"], [[Cell.num 10], [Cell.absent], [Cell.num 50], [Cell.num 55]]⟩ 50
        = Except.ok t' ∧
      t'.cols = ["value"] ∧
      t'.rows = ([[Cell.num 10], [Cell.absent], [Cell.num 50], [Cell.num 55]] :
        List (List Cell)).filter (fun r => keepCell (r.getD 0 Cell.absent) 50) ∧
      t'.rows.Sublist [[Cell.num 10], [Cell.absent], [Cell.num 50], [Cell.num 55]] ∧
      ∀ r ∈ ([[Cell.num 10], [Cell.absent], [Cell.num 50], [Cell.num 55]] :
          List (List Cell)),
        (r ∈ t'.rows ↔ keepCell (r.getD 0 Cell.absent) 50 = true) :=
  c3_filter_iff ⟨["value"], [[Cell.num 10], [Cell.absent], [Cell.num 50], [Cell.num 55]]⟩
    50 0 (by decide) (by decide)

/-- Claim C4 counterexample: on a table whose only row holds the present
value -9999 (no absent values at all), the output carries one `missing`
label, so the `missing` count (1) differs from the absent count (0). -/
theorem c4_counterexample :
    add_category_column ⟨["value"], [[Cell.num (-9999)]]⟩ "value"
        = Except.ok ⟨["value", "category"], [[Cell.num (-9999), Cell.str "missing"]]⟩ ∧
      countMissing ((Table.getCol
          ⟨["value", "category"], [[Cell.num (-9999), Cell.str "missing"]]⟩
          "category").getD []) = 1 ∧
      countAbsent ((Table.getCol ⟨["value"], [[Cell.num (-9999)]]⟩ "value").getD [])
        = 0 := by
  decide

/-- Claim C4 (amended): the number of `missing` labels in the output
equals the number of absent values in the source column plus the number
of present values exactly equal to the sentinel -9999 (the claim as
stated fails whenever a present value collides with the sentinel). -/
theorem c4_missing_count (t : Table) (col : String) (j : Nat)
    (hwf : t.wf = true) (hj : colIdx col t.cols = some j)
    (hv : "_val_filled" ∉ t.cols) (hc : "category" ∉ t.cols)
    (hnum : ∀ r ∈ t.rows, (r.getD j Cell.absent).isStr = false) :
    ∃ t', add_category_column t col = Except.ok t' ∧
      countMissing ((t'.getCol "category").getD []) =
        countAbsent ((t.getCol col).getD []) +
          countSentinel ((t.getCol col).getD []) := by
  refine ⟨_, add_category_column_spec t col j hwf hj hv hc hnum, ?_⟩
  rw [getCol_category_of_spec t j hwf hc]
  simp only [Table.getCol, hj, Option.map_some', Option.getD_some]
  have hstr : ∀ c ∈ t.rows.map (fun r => r.getD j Cell.absent), c.isStr = false := by
    intro c hcm
    simp only [List.mem_map] at hcm
    obtain ⟨r, hr, rfl⟩ := hcm
    exact hnum r hr
  have e1 : t.rows.map (fun r => catOf (r.getD j Cell.absent)) =
      (t.rows.map (fun r => r.getD j Cell.absent)).map catOf := by
    rw [List.map_map]
    rfl
  rw [countMissing, countAbsent, countSentinel, e1]
  exact countP_catOf hstr

/-- Claim C4 witness: the amended count at a three-row table with one
absent value, one sentinel-valued row and one ordinary row. -/
theorem c4_witness :
    ∃ t', add_category_column
          ⟨["value"], [[Cell.absent], [Cell.num (-9999)], [Cell.num 45]]⟩ "value"
        = Except.ok t' ∧
      countMissing ((t'.getCol "category").getD []) =
        countAbsent (((⟨["value"], [[Cell.absent], [Cell.num (-9999)], [Cell.num 45]]⟩ :
            Table).getCol "value").getD []) +
          countSentinel (((⟨["value"], [[Cell.absent], [Cell.num (-9999)], [Cell.num 45]]⟩ :
            Table).getCol "value").getD []) :=
  c4_missing_count ⟨["value"], [[Cell.absent], [Cell.num (-9999)], [Cell.num 45]]⟩
    "value" 0 (by decide) (by decide) (by decide) (by decide) (by decide)

/-- Claim C5 counterexample: the sentinel -9999 does NOT fall strictly
below the lowest bin boundary -10000; it lies inside the first bin and
`pd.cut` bins it as `low`, and a genuine present value -9999 is absorbed
into `missing` by the override. -/
theorem c5_counterexample :
    ¬ (sentinel < bins.getD 0 0) ∧ cutQ sentinel = Cell.str "low" ∧
      add_category_column ⟨["value"], [[Cell.num (-9999)]]⟩ "value"
        = Except.ok ⟨["value", "category"], [[Cell.num (-9999), Cell.str "missing"]]⟩ := by
  decide

/-- Claim C5 (amended): the sentinel -9999 lies strictly above the
lowest bin boundary -10000, inside the first bin (where `pd.cut` labels
it `low`); an absent row is nevertheless never labeled `low`, because
the explicit override rewrites every sentinel-valued row to `missing` —
at the price that a genuine present value -9999 is also absorbed into
`missing`. -/
theorem c5_sentinel_inside_first_bin :
    bins.getD 0 0 < sentinel ∧ cutQ sentinel = Cell.str "low" ∧
      catOf Cell.absent = Cell.str "missing" ∧
      add_category_column ⟨["value"], [[Cell.absent]]⟩ "value"
        = Except.ok ⟨["value", "category"], [[Cell.absent, Cell.str "missing"]]⟩ := by
  decide

/-- Claim C6: `filter_by_min_value` is idempotent — filtering an
already-filtered table again with the same threshold returns it
unchanged. -/
theorem c6_filter_idempotent (t : Table) (m : ℚ) (j : Nat) (t' : Table)
    (hj : colIdx "value" t.cols = some j)
    (hnum : ∀ r ∈ t.rows, (r.getD j Cell.absent).isStr = false)
    (h : filter_by_min_value t m = Except.ok t') :
    filter_by_min_value t' m = Except.ok t' := by
  rw [filter_by_min_value_spec t m j hj hnum] at h
  have ht' : t' = ⟨t.cols, t.rows.filter (fun r => keepCell (r.getD j Cell.absent) m)⟩ :=
    (Except.ok.inj h).symm
  subst ht'
  rw [filter_by_min_value_spec
    ⟨t.cols, t.rows.filter (fun r => keepCell (r.getD j Cell.absent) m)⟩ m j hj
    (fun r hr => hnum r (List.mem_of_mem_filter hr))]
  rw [List.filter_filter]
  simp only [Bool.and_self]

/-- Claim C6 witness: idempotence at threshold 50 on a concrete
two-row table. -/
theorem c6_witness :
    filter_by_min_value ⟨["value"], [[Cell.num 50]]⟩ 50
      = Except.ok ⟨["value"], [[Cell.num 50]]⟩ :=
  c6_filter_idempotent ⟨["value"], [[Cell.num 10], [Cell.num 50]]⟩ 50 0
    ⟨["value"], [[Cell.num 50]]⟩ (by decide) (by decide) (by decide)

/-- Claim C7: neither operation mutates the caller's table.  At the
reference level, the heap entry at the input reference is unchanged by
both programs, and the result of a successful call lives at a fresh
reference distinct from the input's: the output is a new value
independent of the input. -/
theorem c7_no_mutation (h : List Table) (dfRef : Nat) (col : String) (m : ℚ)
    (hdf : dfRef < h.length) :
    ((add_category_column_prog h dfRef col).1).getD dfRef emptyTable
        = h.getD dfRef emptyTable ∧
      ((filter_by_min_value_prog h dfRef m).1).getD dfRef emptyTable
        = h.getD dfRef emptyTable ∧
      (add_category_column_prog h dfRef col).2 ≠ Except.ok dfRef ∧
      (filter_by_min_value_prog h dfRef m).2 ≠ Except.ok dfRef := by
  refine ⟨?_, ?_, ?_, ?_⟩
  · obtain ⟨x, hx⟩ := add_prog_heap h dfRef col
    rw [hx]
    exact getD_append_lt _ h [x] dfRef hdf
  · rcases filter_prog_heap h dfRef m with hx | ⟨x, hx⟩
    · rw [hx]
    · rw [hx]
      exact getD_append_lt _ h [x] dfRef hdf
  · intro hcontra
    have := add_prog_ref h dfRef col dfRef hcontra
    omega
  · intro hcontra
    have := filter_prog_ref h dfRef m dfRef hcontra
    omega

/-- Claim C7 witness: non-mutation at a one-object heap. -/
theorem c7_witness :
    ((add_category_column_prog [⟨["value"], [[Cell.num 1]]⟩] 0 "value").1).getD 0 emptyTable
        = ([⟨["value"], [[Cell.num 1]]⟩] : List Table).getD 0 emptyTable ∧
      ((filter_by_min_value_prog [⟨["value"], [[Cell.num 1]]⟩] 0 0).1).getD 0 emptyTable
        = ([⟨["value"], [[Cell.num 1]]⟩] : List Table).getD 0 emptyTable ∧
      (add_category_column_prog [⟨["value"], [[Cell.num 1]]⟩] 0 "value").2
        ≠ Except.ok 0 ∧
      (filter_by_min_value_prog [⟨["value"], [[Cell.num 1]]⟩] 0 0).2 ≠ Except.ok 0 :=
  c7_no_mutation [⟨["value"], [[Cell.num 1]]⟩] 0 "value" 0 (by decide)

/-- Claim C8: the output of `add_category_column` carries every original
column in order plus exactly one new column `category` on the right, and
the working column `_val_filled` is not present in the output. -/
theorem c8_columns_preserved (t : Table) (col : String) (j : Nat)
    (hwf : t.wf = true) (hj : colIdx col t.cols = some j)
    (hv : "_val_filled" ∉ t.cols) (hc : "category" ∉ t.cols)
    (hnum : ∀ r ∈ t.rows, (r.getD j Cell.absent).isStr = false) :
    ∃ t', add_category_column t col = Except.ok t' ∧
      t'.cols = t.cols ++ ["category"] ∧ "_val_filled" ∉ t'.cols := by
  refine ⟨_, add_category_column_spec t col j hwf hj hv hc hnum, rfl, ?_⟩
  simp [hv]

/-- Claim C8 witness: column preservation at a two-column table. -/
theorem c8_witness :
    ∃ t', add_category_column ⟨["id", "value"], [[Cell.num 1, Cell.num 75]]⟩ "value"
        = Except.ok t' ∧
      t'.cols = ["id", "value"] ++ ["category"] ∧ "_val_filled" ∉ t'.cols :=
  c8_columns_preserved ⟨["id", "value"], [[Cell.num 1, Cell.num 75]]⟩ "value" 1
    (by decide) (by decide) (by decide) (by decide) (by decide)

/-- Claim C9: when the named source column does not exist in the table,
`add_category_column` surfaces the `KeyError` to the caller and produces
no output table at all. -/
theorem c9_missing_column_error (t : Table) (col : String) (hcol : col ∉ t.cols) :
    add_category_column t col = Except.error "KeyError" := by
  simp only [add_category_column, Table.getCol, colIdx_eq_none hcol, Option.map_none']

/-- Claim C9 witness: the error at a table without the requested
column. -/
theorem c9_witness :
    add_category_column ⟨["id"], [[Cell.num 1]]⟩ "value" = Except.error "KeyError" :=
  c9_missing_column_error ⟨["id"], [[Cell.num 1]]⟩ "value" (by decide)

/-- Claim C10: a present source value exactly equal to -9999 collides
with the internal sentinel: its row is labeled `missing`, not `low`. -/
theorem c10_sentinel_collision_missing (t : Table) (col : String) (j i : Nat)
    (r : List Cell)
    (hwf : t.wf = true) (hj : colIdx col t.cols = some j)
    (hv : "_val_filled" ∉ t.cols) (hc : "category" ∉ t.cols)
    (hnum : ∀ r ∈ t.rows, (r.getD j Cell.absent).isStr = false)
    (hir : t.rows[i]? = some r)
    (hcell : r.getD j Cell.absent = Cell.num (-9999)) :
    ∃ t', add_category_column t col = Except.ok t' ∧
      t'.rows[i]? = some (r ++ [Cell.str "missing"]) := by
  refine ⟨_, add_category_column_spec t col j hwf hj hv hc hnum, ?_⟩
  have h9 : catOf (Cell.num (-9999)) = Cell.str "missing" := by decide
  simp only [List.getElem?_map, hir, Option.map_some', hcell, h9]

/-- Claim C10 witness: the collision at a one-row table holding the
present value -9999. -/
theorem c10_witness :
    ∃ t', add_category_column ⟨["value"], [[Cell.num (-9999)]]⟩ "value" = Except.ok t' ∧
      t'.rows[0]? = some ([Cell.num (-9999)] ++ [Cell.str "missing"]) :=
  c10_sentinel_collision_missing ⟨["value"], [[Cell.num (-9999)]]⟩ "value" 0 0
    [Cell.num (-9999)] (by decide) (by decide) (by decide) (by decide) (by decide)
    (by decide) (by decide)

end PandasDemo
